import Mathlib

/-!
Verification development for the RAG-agent repository: a multi-tenant
retrieval-augmented-generation backend.  The definitions below are a shallow
embedding of the Python sources under src/ (FastAPI routers, ingestion
service, GitHub activity analyzer, SBERT embedding service).  External
collaborators (MongoDB vector search, the sentence-embedding model, network
fetches, the LLM) are represented by explicit parameters; everything the
repository itself computes is translated directly.
-/

/-- Metadata attached to a stored document.  In the Python code this is a
dict; the keys that the code ever writes are source, user_id and type, so the
model uses a structure with the optional keys as Option (none = key absent).
Every write path sets source, so it is a plain field. -/
structure ChunkMetadata where
  source : String
  user_id : Option String := none
  type : Option String := none
deriving DecidableEq, Repr

/-- A stored document: page_content plus metadata (langchain Document as the
repository uses it). -/
structure Chunk where
  text : String
  metadata : ChunkMetadata
deriving DecidableEq, Repr

/-- One day cell of the scraped GitHub contribution calendar:
data-date (ISO string) and data-count. -/
structure ContribDay where
  date : String
  count : Nat
deriving DecidableEq, Repr

/- ----------------------------------------------------------------- -/
/- Chunker                                                            -/
/- ----------------------------------------------------------------- -/

/-- Recursion worker for the chunker, with fuel (the input length bounds the
number of windows). -/
def splitGo (window overlap : Nat) : Nat → List Char → List (List Char)
  | 0, cs => [cs]
  | fuel + 1, cs =>
    if cs.length ≤ window then [cs]
    else cs.take window :: splitGo window overlap fuel (cs.drop (window - overlap))

/-- Modelled from the spec: the repository delegates chunking to an external
text-splitter library (constructed in src/backend/services/ingest_service.py
with chunk_size 1000 and chunk_overlap 200) whose implementation is not part
of the repository.  Following the spec, split produces overlapping windows of
at most window characters, consecutive windows sharing overlap characters of
context, never dropping text; degenerate input shorter than the window yields
exactly one chunk; pure and deterministic. -/
def Chunker.split (text : String) (window : Nat := 1000) (overlap : Nat := 200) :
    List String :=
  (splitGo window overlap text.length text.data).map (fun cs => String.mk cs)

/- ----------------------------------------------------------------- -/
/- Ingestion service                                                  -/
/- ----------------------------------------------------------------- -/

/-- Python str.strip: remove leading and trailing whitespace.  Defined over
the character list so that it evaluates by kernel reduction. -/
def pyStrip (s : String) : String :=
  String.mk (((s.data.dropWhile Char.isWhitespace).reverse.dropWhile
    Char.isWhitespace).reverse)

/-- Error taxonomy named by the spec (section 7).  The repository's own code
never raises any of these; the type exists to state the spec-side contract. -/
inductive IngestError where
  | invalidInput
  | embeddingUnavailable
  | storage (persisted : Nat)
deriving DecidableEq, Repr

/-- Shallow embedding of ingest_text from
src/backend/services/ingest_service.py: split the text, attach
(source, user_id) metadata to every chunk, append all chunks to the vector
store, return the chunk count.  The store is passed and returned explicitly;
the function body contains no raise, so the translation always returns ok. -/
def ingest_text (store : List Chunk) (text : String) (source : String := "user-paste")
    (user_id : String := "all") : Except IngestError (List Chunk × Nat) :=
  let docs := (Chunker.split text 1000 200).map
    (fun t => { text := t, metadata := { source := source, user_id := some user_id } })
  .ok (store ++ docs, docs.length)

/-- Modelled from the spec: the ingestion contract of spec section 4.2 step 1,
which the repository's ingest_text does not implement.  Validates that the
input is non-empty after normalization (trimming whitespace) and fails with
InvalidInputError on empty or whitespace-only text, otherwise proceeds as the
ingestion pipeline does. -/
def ingest_spec (store : List Chunk) (text : String) (source : String)
    (user_id : String) : Except IngestError (List Chunk × Nat) :=
  if pyStrip text = "" then .error .invalidInput
  else ingest_text store text source user_id

/- ----------------------------------------------------------------- -/
/- Ingest router: classification of /ingest/text requests             -/
/- ----------------------------------------------------------------- -/

/-- Substring test on character lists (Python in-operator on str). -/
def listIsPref : List Char → List Char → Bool
  | [], _ => true
  | _ :: _, [] => false
  | a :: as, b :: bs => a == b && listIsPref as bs

/-- Substring containment: needle occurs somewhere in hay. -/
def strContains (hay needle : String) : Bool :=
  go needle.data hay.data
where
  go (needle : List Char) : List Char → Bool
    | [] => listIsPref needle []
    | c :: cs => listIsPref needle (c :: cs) || go needle cs

/-- What the /ingest/text route dispatches to. -/
inductive IngestAction where
  | scrapeProfile (url : String)
  | ingestRepo (url : String)
  | ingestFreeText (text source : String)
deriving DecidableEq, Repr

/-- Worker for splitting a character list on a separator character. -/
def charSplitGo (sep : Char) : List Char → List Char → List String
  | cur, [] => [String.mk cur.reverse]
  | cur, c :: cs =>
    if c = sep then String.mk cur.reverse :: charSplitGo sep [] cs
    else charSplitGo sep (c :: cur) cs

/-- Python str.split with a one-character separator. -/
def charSplit (sep : Char) (s : String) : List String := charSplitGo sep [] s.data

/-- Python str.startswith, over the character lists. -/
def strStartsWith (s p : String) : Bool := listIsPref p.data s.data

/-- Python text.rstrip of the slash character followed by split on slash. -/
def urlParts (text : String) : List String :=
  charSplit '/' (String.mk (text.data.reverse.dropWhile (fun c => c = '/')).reverse)

/-- Shallow embedding of the dispatch logic of ingest_text_route in
src/backend/api/routers/ingest.py: if the text starts with the GitHub prefix,
compute is_profile (no /tree/ or /blob/ substring and exactly four
slash-separated parts after stripping trailing slashes); when is_profile
holds, re-split and send four-part URLs to profile scraping, others to
repository ingestion; every other input falls through to plain text
ingestion. -/
def ingest_text_route (text source : String) : IngestAction :=
  if strStartsWith text "https://github.com/" then
    let is_profile := !(strContains text "/tree/") && !(strContains text "/blob/")
      && (urlParts text).length == 4
    if is_profile then
      let parts := urlParts text
      if parts.length == 4 then .scrapeProfile text
      else .ingestRepo text
    else .ingestFreeText text source
  else .ingestFreeText text source

/- ----------------------------------------------------------------- -/
/- Vector-store retrieval and the chat route                          -/
/- ----------------------------------------------------------------- -/

/-- Insertion step for the similarity ordering. -/
def insertBy {α : Type} (le : α → α → Bool) (a : α) : List α → List α
  | [] => [a]
  | b :: bs => if le a b then a :: b :: bs else b :: insertBy le a bs

/-- Insertion sort, modelling the store returning results ordered by the
comparison le. -/
def sortBy {α : Type} (le : α → α → Bool) : List α → List α
  | [] => []
  | a :: as => insertBy le a (sortBy le as)

/-- Model of the MongoDB Atlas vector search the chat route configures: the
pre_filter keeps exactly the chunks whose user_id metadata equals (eq
operator) the requesting user_id, the k nearest of them are returned in
descending similarity order.  The similarity score of a chunk against the
query is an external parameter. -/
def vectorSearch (store : List Chunk) (score : Chunk → Int) (k : Nat)
    (user_id : String) : List Chunk :=
  let filtered := store.filter (fun c => c.metadata.user_id == some user_id)
  (sortBy (fun a b => score b ≤ score a) filtered).take k

/-- Shallow embedding of the chat route in src/backend/api/routers/chat.py up
to the LLM call (the streamed generation is external): reject an empty
message list, take the last message as the question, retrieve the top 3
chunks pre-filtered to the authenticated user's id, join their texts with
blank lines as the context, and build one source entry per retrieved chunk.
Returns none for the no-messages error path, otherwise the retrieved
documents, the context text and the source list.  The similarity scoring of
the question against stored chunks is an external parameter. -/
def chat (store : List Chunk) (score : String → Chunk → Int) (user_id : String)
    (messages : List String) : Option (List Chunk × String × List String) :=
  match messages.getLast? with
  | none => none
  | some question =>
    let docs := vectorSearch store (score question) 3 user_id
    let context_text := String.intercalate "\n\n" (docs.map (fun d => d.text))
    let sources := docs.map (fun d => d.metadata.source)
    some (docs, context_text, sources)

/- ----------------------------------------------------------------- -/
/- Embedding service                                                  -/
/- ----------------------------------------------------------------- -/

/-- Shallow embedding of SBERTService.embed_batch in
src/embedding-service/app/services/sbert_service.py: raise on an empty list,
filter out texts that are empty or whitespace-only, raise if none remain,
encode the remaining texts in order.  The sentence-transformer encoder is the
external parameter enc (applied per text; the library encodes a batch
order-preservingly). -/
def embed_batch {α : Type} (enc : String → α) (texts : List String) :
    Except String (List α) :=
  if texts.isEmpty then .error "Texts list cannot be empty"
  else
    let valid_texts := texts.filter (fun t => !(t == "") && !(pyStrip t == ""))
    if valid_texts.isEmpty then .error "No valid texts provided"
    else .ok (valid_texts.map enc)

/- ----------------------------------------------------------------- -/
/- GitHub activity analyzer                                           -/
/- ----------------------------------------------------------------- -/

/-- Aggregate the analyzer fills in, mirroring the profile_data dict of
scrape_github_profile in src/backend/services/github_service.py. -/
structure ProfileData where
  totalContributions : Nat := 0
  commits : Nat := 0
  issues : Nat := 0
  pullRequests : Nat := 0
  reviews : Nat := 0
  repos : Nat := 0
  currentStreak : Nat := 0
  longestStreak : Nat := 0
  activeDays : Nat := 0
  isExact : Bool := false
deriving DecidableEq, Repr

/-- The zero-initialised profile_data dict. -/
def defaultProfileData : ProfileData := {}

/-- Parsed payload of a successful GraphQL user response: the repositories
total count and the contributionsCollection breakdown
(commits, issues, pull requests, reviews), each present only when the
corresponding key is truthy in the JSON. -/
structure GraphQLUser where
  repositoriesTotal : Option Nat
  contributionsCollection : Option (Nat × Nat × Nat × Nat)
deriving DecidableEq, Repr

/-- Outcomes of the analyzer's three network sub-steps, each an external
input to the model.  An error value stands for a raised network or parse
exception (a non-200 status behaves the same: the fields stay untouched).
For the profile page the payload is the parsed repositories-tab counter when
that element parses; for the contributions page it is the headline total (if
an integer was found) together with the calendar day cells; for GraphQL it is
the user object of the response, none when the data or user key is absent. -/
structure ScrapeEnv where
  profilePage : Except String (Option Nat)
  contribPage : Except String (Option Nat × List ContribDay)
  githubToken : Option String
  graphqlUser : Except String (Option GraphQLUser)

/-- Longest-streak scan state machine of scrape_github_profile: walk the
sorted days, increment temp_streak on an active day, fold temp_streak into
longest_streak on an inactive day, with a final flush at the end. -/
def lsGo (longest temp : Nat) : List ContribDay → Nat
  | [] => max longest temp
  | d :: ds =>
    if 0 < d.count then lsGo longest (temp + 1) ds
    else lsGo (max longest temp) 0 ds

/-- The longest_streak value the analyzer computes from the
chronologically sorted day list. -/
def longest_streak (days : List ContribDay) : Nat := lsGo 0 0 days

/-- Current-streak reverse scan of scrape_github_profile, acting on the
already reversed day list: count active days; an inactive day whose date is
today is skipped (continue); any other inactive day breaks the scan. -/
def csGo (today : String) (acc : Nat) : List ContribDay → Nat
  | [] => acc
  | d :: ds =>
    if 0 < d.count then csGo today (acc + 1) ds
    else if d.date = today then csGo today acc ds
    else acc

/-- The current_streak value the analyzer computes: iterate backwards over
the chronologically sorted day list.  The date string for today
(datetime.now) is an explicit parameter. -/
def current_streak (days : List ContribDay) (today : String) : Nat :=
  csGo today 0 days.reverse

/-- Sorting of the scraped day cells by date string (days.sort keyed on the
date), as the analyzer does before computing streaks. -/
def sortByDate (days : List ContribDay) : List ContribDay :=
  sortBy (fun a b => a.date ≤ b.date) days

/-- Step 1 of the analyzer: the main profile page; on success with a parsed
repositories counter, set repos; a missing counter, a parse failure or a
network error leaves the data unchanged. -/
def scrapeStep1 (env : ScrapeEnv) (pd : ProfileData) : ProfileData :=
  match env.profilePage with
  | .error _ => pd
  | .ok none => pd
  | .ok (some n) => { pd with repos := n }

/-- Step 2 of the analyzer: the contributions calendar; on success set the
headline total (when found), sort the day cells by date and compute the
streak and active-day statistics; a network error leaves all of these fields
unchanged. -/
def scrapeStep2 (env : ScrapeEnv) (today : String) (pd : ProfileData) : ProfileData :=
  match env.contribPage with
  | .error _ => pd
  | .ok (tot, rawDays) =>
    let days := sortByDate rawDays
    let pd := match tot with
      | some t => { pd with totalContributions := t }
      | none => pd
    { pd with
      currentStreak := current_streak days today
      longestStreak := longest_streak days
      activeDays := (days.filter (fun d => 0 < d.count)).length }

/-- Step 3 of the analyzer: the GraphQL query, attempted only when a token is
configured; a successful response overrides repos and, when the
contributionsCollection is present, the commit/issue/PR/review counts,
setting isExact; any failure keeps the scraped values. -/
def scrapeStep3 (env : ScrapeEnv) (pd : ProfileData) : ProfileData :=
  match env.githubToken with
  | none => pd
  | some _ =>
    match env.graphqlUser with
    | .error _ => pd
    | .ok none => pd
    | .ok (some user) =>
      let pd := match user.repositoriesTotal with
        | some n => { pd with repos := n }
        | none => pd
      match user.contributionsCollection with
      | some (c, i, p, r) =>
        { pd with commits := c, issues := i, pullRequests := p, reviews := r,
                  isExact := true }
      | none => pd

/-- The complete profile_data computation of scrape_github_profile: the three
sub-steps applied in order to the zero-initialised data. -/
def scrapeProfileData (env : ScrapeEnv) (today : String) : ProfileData :=
  scrapeStep3 env (scrapeStep2 env today (scrapeStep1 env defaultProfileData))

/-- The fixed-format textual summary rendered by scrape_github_profile. -/
def buildSummary (username url : String) (pd : ProfileData) : String :=
  "GitHub Profile Analysis for User: " ++ username ++ "\n" ++
  "Source URL: " ++ url ++ "\n" ++
  "---\n" ++
  "Total Repositories: " ++ toString pd.repos ++ "\n" ++
  "Total Contributions (Last Year): " ++ toString pd.totalContributions ++ "\n" ++
  "Detailed Breakdown:\n" ++
  "- Commits: " ++ toString pd.commits ++ "\n" ++
  "- Issues: " ++ toString pd.issues ++ "\n" ++
  "- PRs: " ++ toString pd.pullRequests ++ "\n" ++
  "- Reviews: " ++ toString pd.reviews ++ "\n" ++
  "---\n" ++
  "Activity Stats:\n" ++
  "- Current Streak: " ++ toString pd.currentStreak ++ " days\n" ++
  "- Longest Streak: " ++ toString pd.longestStreak ++ " days\n" ++
  "- Active Days: " ++ toString pd.activeDays ++ " days"

/-- The single summary document scrape_github_profile stores: the rendered
summary with metadata containing only the source URL and the profile type
marker; no user_id key is written. -/
def profileChunk (env : ScrapeEnv) (url today : String) : Chunk :=
  { text := buildSummary ((charSplit '/' url).getLastD "") url (scrapeProfileData env today)
    metadata := { source := url, user_id := none, type := some "profile" } }

/-- Shallow embedding of scrape_github_profile: compute the best-effort
profile data from whatever sub-steps succeeded, render the summary, append
it to the vector store as one document, return True. -/
def scrape_github_profile (env : ScrapeEnv) (url today : String)
    (store : List Chunk) : List Chunk × Bool :=
  (store ++ [profileChunk env url today], true)

/- ----------------------------------------------------------------- -/
/- Helper lemmas                                                      -/
/- ----------------------------------------------------------------- -/

theorem mem_insertBy {α : Type} (le : α → α → Bool) (a : α) (l : List α) (x : α) :
    x ∈ insertBy le a l ↔ x = a ∨ x ∈ l := by
  induction l with
  | nil => simp [insertBy]
  | cons b bs ih =>
    simp only [insertBy]
    split
    · simp
    · simp only [List.mem_cons, ih]
      tauto

theorem mem_sortBy {α : Type} (le : α → α → Bool) (l : List α) (x : α) :
    x ∈ sortBy le l ↔ x ∈ l := by
  induction l with
  | nil => simp [sortBy]
  | cons a as ih => simp [sortBy, mem_insertBy, ih]

theorem mem_vectorSearch {store : List Chunk} {score : Chunk → Int} {k : Nat}
    {uid : String} {c : Chunk} (h : c ∈ vectorSearch store score k uid) :
    c ∈ store ∧ c.metadata.user_id = some uid := by
  have h1 : c ∈ sortBy (fun a b => score b ≤ score a)
      (store.filter (fun c => c.metadata.user_id == some uid)) :=
    List.take_subset k _ h
  rw [mem_sortBy] at h1
  have h2 := List.mem_filter.mp h1
  exact ⟨h2.1, by simpa using h2.2⟩

theorem lsGo_ge_left (ds : List ContribDay) :
    ∀ longest temp : Nat, longest ≤ lsGo longest temp ds := by
  induction ds with
  | nil => intro l t; simp [lsGo, Nat.le_max_left]
  | cons d ds ih =>
    intro l t
    simp only [lsGo]
    split
    · exact ih l (t + 1)
    · exact le_trans (Nat.le_max_left l t) (ih (max l t) 0)

theorem lsGo_ge_right (ds : List ContribDay) :
    ∀ longest temp : Nat, temp ≤ lsGo longest temp ds := by
  induction ds with
  | nil => intro l t; simp [lsGo, Nat.le_max_right]
  | cons d ds ih =>
    intro l t
    simp only [lsGo]
    split
    · exact le_trans (Nat.le_succ t) (ih l (t + 1))
    · exact le_trans (Nat.le_max_right l t) (lsGo_ge_left ds (max l t) 0)

theorem lsGo_mono (ds : List ContribDay) :
    ∀ l t l' t' : Nat, l ≤ l' → t ≤ t' → lsGo l t ds ≤ lsGo l' t' ds := by
  induction ds with
  | nil => intro l t l' t' h1 h2; simpa [lsGo] using max_le_max h1 h2
  | cons d ds ih =>
    intro l t l' t' h1 h2
    simp only [lsGo]
    split
    · exact ih l (t + 1) l' (t' + 1) h1 (Nat.succ_le_succ h2)
    · exact ih (max l t) 0 (max l' t') 0 (max_le_max h1 h2) (Nat.le_refl 0)

theorem lsGo_append_pos (mid : List ContribDay) (hpos : ∀ x ∈ mid, 0 < x.count) :
    ∀ (ds : List ContribDay) (l t : Nat),
      lsGo l t (mid ++ ds) = lsGo l (t + mid.length) ds := by
  induction mid with
  | nil => intro ds l t; simp
  | cons a mid ih =>
    intro ds l t
    have ha : 0 < a.count := hpos a (List.mem_cons_self a mid)
    have hmid : ∀ x ∈ mid, 0 < x.count := fun x hx => hpos x (List.mem_cons_of_mem a hx)
    simp only [List.cons_append, lsGo, if_pos ha, List.append_eq]
    rw [ih hmid ds l (t + 1)]
    congr 1
    simp [List.length_cons]
    omega

theorem lsGo_drop_left (ds : List ContribDay) :
    ∀ (pre : List ContribDay) (l t : Nat), lsGo 0 0 ds ≤ lsGo l t (pre ++ ds) := by
  intro pre
  induction pre with
  | nil => intro l t; exact lsGo_mono ds 0 0 l t (Nat.zero_le l) (Nat.zero_le t)
  | cons a pre ih =>
    intro l t
    simp only [List.cons_append, lsGo]
    split
    · exact ih l (t + 1)
    · exact ih (max l t) 0

theorem lsGo_cases (ds : List ContribDay) :
    ∀ l t : Nat,
      lsGo l t ds = l ∨
      (∃ mid suf, ds = mid ++ suf ∧ (∀ x ∈ mid, 0 < x.count) ∧
        lsGo l t ds = t + mid.length) ∨
      (∃ pre mid suf, ds = pre ++ mid ++ suf ∧ (∀ x ∈ mid, 0 < x.count) ∧
        lsGo l t ds = mid.length) := by
  induction ds with
  | nil =>
    intro l t
    rcases Nat.le_total t l with h | h
    · left; simp [lsGo, Nat.max_eq_left h]
    · right; left
      exact ⟨[], [], by simp, by simp, by simp [lsGo, Nat.max_eq_right h]⟩
  | cons d ds ih =>
    intro l t
    by_cases hd : 0 < d.count
    · rcases ih l (t + 1) with h | ⟨mid, suf, hds, hpos, hval⟩ |
        ⟨pre, mid, suf, hds, hpos, hval⟩
      · left; simpa [lsGo, if_pos hd] using h
      · right; left
        refine ⟨d :: mid, suf, by simp [hds], ?_, ?_⟩
        · intro x hx
          rcases List.mem_cons.mp hx with rfl | hx
          · exact hd
          · exact hpos x hx
        · simp only [lsGo, if_pos hd, hval, List.length_cons]
          omega
      · right; right
        exact ⟨d :: pre, mid, suf, by simp [hds], hpos,
          by simp [lsGo, if_pos hd, hval]⟩
    · rcases ih (max l t) 0 with h | ⟨mid, suf, hds, hpos, hval⟩ |
        ⟨pre, mid, suf, hds, hpos, hval⟩
      · rcases Nat.le_total t l with hlt | hlt
        · left
          simp only [lsGo, if_neg hd, h]
          exact Nat.max_eq_left hlt
        · right; left
          refine ⟨[], d :: ds, by simp, by simp, ?_⟩
          simp only [lsGo, if_neg hd, h, List.length_nil]
          omega
      · right; right
        exact ⟨[d], mid, suf, by simp [hds], hpos,
          by simp only [lsGo, if_neg hd, hval]; omega⟩
      · right; right
        exact ⟨d :: pre, mid, suf, by simp [hds], hpos,
          by simp [lsGo, if_neg hd, hval]⟩

theorem csGo_append_pos (today : String) (rs : List ContribDay)
    (hpos : ∀ x ∈ rs, 0 < x.count) :
    ∀ (rest : List ContribDay) (acc : Nat),
      csGo today acc (rs ++ rest) = csGo today (acc + rs.length) rest := by
  induction rs with
  | nil => intro rest acc; simp
  | cons a rs ih =>
    intro rest acc
    have ha : 0 < a.count := hpos a (List.mem_cons_self a rs)
    have hrs : ∀ x ∈ rs, 0 < x.count := fun x hx => hpos x (List.mem_cons_of_mem a hx)
    simp only [List.cons_append, csGo, if_pos ha, List.append_eq]
    rw [ih hrs rest (acc + 1)]
    congr 1
    simp [List.length_cons]
    omega

theorem valid_text_cond (t : String) :
    (!(t == "") && !(pyStrip t == "")) = decide (pyStrip t ≠ "") := by
  by_cases h : t = ""
  · subst h; decide
  · have h1 : (t == "") = false := by simpa using h
    by_cases h2 : pyStrip t = "" <;> simp [h1, h2]

/- ----------------------------------------------------------------- -/
/- Claim theorems                                                     -/
/- ----------------------------------------------------------------- -/

/-- C8: for every non-empty input text strictly shorter than the window size
(1000 characters with the default parameters), the Chunker's split returns
exactly one chunk, and that chunk's text equals the input text. -/
theorem chunker_short_text_single_chunk (text : String)
    (hne : 0 < text.length) (hlt : text.length < 1000) :
    Chunker.split text 1000 200 = [text] := by
  unfold Chunker.split
  obtain ⟨n, hn⟩ : ∃ n, text.length = n + 1 := ⟨text.length - 1, by omega⟩
  rw [hn]
  simp only [splitGo]
  rw [if_pos]
  · simp
  · have hd : text.data.length = text.length := rfl
    omega

/-- Witness for C8 at a concrete two-character input. -/
theorem chunker_short_text_single_chunk_witness :
    0 < "hi".length ∧ "hi".length < 1000 ∧ Chunker.split "hi" 1000 200 = ["hi"] :=
  ⟨by decide, by decide, chunker_short_text_single_chunk "hi" (by decide) (by decide)⟩

set_option maxRecDepth 4096 in
/-- C3 (evidence of the code bug): the ingestion entry point sends a
well-formed GitHub repository URL to generic free-text ingestion, and in fact
no input at all ever dispatches to the repository-ingestion variant, because
the is_profile guard already demands exactly four URL parts, making the inner
repository branch unreachable. -/
theorem repo_url_routed_to_free_text :
    ingest_text_route "https://github.com/octocat/hello-world" "user-paste" =
      IngestAction.ingestFreeText "https://github.com/octocat/hello-world" "user-paste" ∧
    ∀ text source url : String,
      ingest_text_route text source ≠ IngestAction.ingestRepo url := by
  constructor
  · decide
  · intro text source url h
    simp only [ingest_text_route] at h
    split at h
    · split at h
      · rename_i hprof
        split at h
        · exact IngestAction.noConfusion h
        · rename_i hlen
          rw [Bool.and_eq_true, Bool.and_eq_true] at hprof
          exact hlen hprof.2
      · exact IngestAction.noConfusion h
    · exact IngestAction.noConfusion h

/-- C4 counterexample: for the whitespace-only input text the repository's
ingest_text succeeds (it contains no validation and no InvalidInputError
exists anywhere in the code), while the spec-side contract demands an
InvalidInputError failure. -/
theorem ingest_no_validation_counterexample :
    (ingest_text [] "   " "note" "u1").isOk = true ∧
    ingest_spec [] "   " "note" "u1" = Except.error IngestError.invalidInput := by
  exact ⟨rfl, rfl⟩

/-- C4 amended: the ingest operation performs no emptiness validation; for
every input text, including empty or whitespace-only text, it succeeds,
chunks the text, tags every produced chunk with the given source and
user_id, appends the chunks to the store and returns their count. -/
theorem ingest_accepts_any_text (store : List Chunk) (text source user_id : String) :
    ∃ docs : List Chunk,
      ingest_text store text source user_id = .ok (store ++ docs, docs.length) ∧
      docs.length = (Chunker.split text 1000 200).length ∧
      ∀ c ∈ docs, c.metadata = { source := source, user_id := some user_id, type := none } := by
  refine ⟨(Chunker.split text 1000 200).map
    (fun t => { text := t, metadata := { source := source, user_id := some user_id } }),
    rfl, by simp, ?_⟩
  intro c hc
  simp only [List.mem_map] at hc
  obtain ⟨t, _, rfl⟩ := hc
  rfl

/-- C6: for every day list the longest_streak scan computes exactly the
maximum length of a consecutive run of days with positive count: some
consecutive run of positive days of that length exists in the list, no
consecutive run of positive days is longer, and the concrete example with
counts 5, 0, 3, 2 evaluates to 2. -/
theorem longest_streak_correct (days : List ContribDay) :
    (∃ pre mid suf, days = pre ++ mid ++ suf ∧ (∀ x ∈ mid, 0 < x.count) ∧
      mid.length = longest_streak days) ∧
    (∀ pre mid suf, days = pre ++ mid ++ suf → (∀ x ∈ mid, 0 < x.count) →
      mid.length ≤ longest_streak days) ∧
    longest_streak [⟨"d1", 5⟩, ⟨"d2", 0⟩, ⟨"d3", 3⟩, ⟨"d4", 2⟩] = 2 := by
  refine ⟨?_, ?_, by decide⟩
  · rcases lsGo_cases days 0 0 with h | ⟨mid, suf, hds, hpos, hval⟩ |
      ⟨pre, mid, suf, hds, hpos, hval⟩
    · exact ⟨[], [], days, by simp, by simp, by simp [longest_streak, h]⟩
    · exact ⟨[], mid, suf, by simpa using hds, hpos, by simp [longest_streak, hval]⟩
    · exact ⟨pre, mid, suf, hds, hpos, hval.symm⟩
  · intro pre mid suf hds hpos
    subst hds
    calc mid.length ≤ lsGo 0 mid.length suf := lsGo_ge_right suf 0 mid.length
      _ = lsGo 0 0 (mid ++ suf) := by rw [lsGo_append_pos mid hpos suf 0 0, Nat.zero_add]
      _ ≤ lsGo 0 0 (pre ++ (mid ++ suf)) := lsGo_drop_left (mid ++ suf) pre 0 0
      _ = longest_streak (pre ++ mid ++ suf) := by
          simp [longest_streak, List.append_assoc]

/-- Witness for C6 at the concrete example. -/
theorem longest_streak_correct_witness :
    longest_streak [⟨"d1", 5⟩, ⟨"d2", 0⟩, ⟨"d3", 3⟩, ⟨"d4", 2⟩] = 2 :=
  (longest_streak_correct []).2.2

/-- C7: the current_streak reverse scan counts consecutive positive days from
the most recent day, and a zero-count day whose date is today is skipped
rather than breaking the scan: whenever the day list ends with a maximal run
of positive days followed by a zero-count day dated today, the current streak
is exactly the length of that run. -/
theorem current_streak_skips_today (pre run : List ContribDay) (d : ContribDay)
    (today : String)
    (hd_date : d.date = today) (hd_count : d.count = 0)
    (hrun : ∀ x ∈ run, 0 < x.count)
    (hpre : ∀ p, pre.getLast? = some p → p.count = 0 ∧ p.date ≠ today) :
    current_streak (pre ++ run ++ [d]) today = run.length := by
  unfold current_streak
  have hrev : (pre ++ run ++ [d]).reverse = d :: (run.reverse ++ pre.reverse) := by
    simp
  rw [hrev]
  simp only [csGo, hd_count, hd_date, Nat.lt_irrefl, if_false, if_pos rfl]
  rw [csGo_append_pos today run.reverse
    (fun x hx => hrun x (List.mem_reverse.mp hx)) pre.reverse 0]
  rw [List.length_reverse, Nat.zero_add]
  rcases List.eq_nil_or_concat pre with rfl | ⟨l, p, rfl⟩
  · simp [csGo]
  · obtain ⟨hp_count, hp_date⟩ := hpre p (by simp)
    simp [csGo, hp_count, hp_date]

/-- Witness for C7: three positive days before a zero-count today. -/
theorem current_streak_skips_today_witness :
    current_streak [⟨"2026-10-08", 0⟩, ⟨"2026-10-09", 1⟩, ⟨"2026-10-10", 2⟩,
      ⟨"2026-10-11", 3⟩, ⟨"2026-10-12", 0⟩] "2026-10-12" = 3 := by
  have h := current_streak_skips_today [⟨"2026-10-08", 0⟩]
    [⟨"2026-10-09", 1⟩, ⟨"2026-10-10", 2⟩, ⟨"2026-10-11", 3⟩]
    ⟨"2026-10-12", 0⟩ "2026-10-12" (by decide) (by decide) (by decide)
    (by intro p hp; simp at hp; subst hp; exact ⟨rfl, by decide⟩)
  simpa using h

/-- C1: the retrieval step of the chat operation invoked with user A only
ever returns chunks whose user_id metadata equals A (so never a chunk of a
different tenant B), and every entry of the source list comes from one of
those retrieved chunks. -/
theorem chat_tenant_isolation (store : List Chunk) (score : String → Chunk → Int)
    (A B : String) (messages : List String) (hAB : A ≠ B)
    (docs : List Chunk) (ctx : String) (sources : List String)
    (h : chat store score A messages = some (docs, ctx, sources)) :
    (∀ c ∈ docs, c.metadata.user_id = some A ∧ c.metadata.user_id ≠ some B) ∧
    sources = docs.map (fun d => d.metadata.source) := by
  unfold chat at h
  cases hm : messages.getLast? with
  | none => rw [hm] at h; exact absurd h (by simp)
  | some q =>
    rw [hm] at h
    simp only [Option.some.injEq, Prod.mk.injEq] at h
    obtain ⟨hdocs, _, hsrc⟩ := h
    constructor
    · intro c hc
      have huid := (mem_vectorSearch (hdocs ▸ hc)).2
      refine ⟨huid, fun hB => hAB ?_⟩
      rw [huid] at hB
      exact Option.some.inj hB
    · rw [← hsrc, hdocs]

/-- Witness for C1: a store holding one chunk for each of two tenants. -/
theorem chat_tenant_isolation_witness :
    (∀ c ∈ [Chunk.mk "ca" { source := "s1", user_id := some "u1" }],
      c.metadata.user_id = some "u1" ∧ c.metadata.user_id ≠ some "u2") ∧
    ["s1"] = [Chunk.mk "ca" { source := "s1", user_id := some "u1" }].map
      (fun d => d.metadata.source) :=
  chat_tenant_isolation
    [⟨"ca", { source := "s1", user_id := some "u1" }⟩,
     ⟨"cb", { source := "s2", user_id := some "u2" }⟩]
    (fun _ _ => 0) "u1" "u2" ["q"] (by decide)
    [⟨"ca", { source := "s1", user_id := some "u1" }⟩] "ca" ["s1"] (by decide)

/-- C2: end-to-end on the concrete example: ingesting the two-sentence text
with source note for tenant u1 yields chunk count 1, every produced chunk
carries the source and the tenant's user_id, and a subsequent chat question
scoped to u1 retrieves exactly that chunk with source list containing exactly
the note entry. -/
theorem ingest_then_chat_e2e :
    ∃ (chunks : List Chunk) (ctx : String),
      ingest_text [] "The sky is blue. Grass is green." "note" "u1" =
        .ok (chunks, 1) ∧
      (∀ c ∈ chunks, c.metadata.source = "note" ∧ c.metadata.user_id = some "u1") ∧
      chat chunks (fun _ _ => 0) "u1" ["What color is the sky?"] =
        some (chunks, ctx, ["note"]) := by
  refine ⟨[⟨"The sky is blue. Grass is green.",
    { source := "note", user_id := some "u1" }⟩], _, ?_, by decide, rfl⟩
  rfl

/-- C5 counterexample: with a two-element input list whose second text is
empty, embed_batch returns a single vector instead of one per input text;
and for the non-empty whitespace-only list it fails even though the claim
allows failure only for the empty list. -/
theorem embed_batch_counterexample :
    embed_batch (fun _ => (0 : Nat)) ["hi", ""] = Except.ok [0] ∧
    embed_batch (fun _ => (0 : Nat)) [" "] =
      Except.error "No valid texts provided" :=
  ⟨rfl, rfl⟩

/-- C5 corrected: embed_batch silently drops empty and whitespace-only
texts; it succeeds exactly when some input text has non-whitespace content,
and on success returns exactly one vector per remaining text, in input
order. -/
theorem embed_batch_drops_blank_texts {α : Type} (enc : String → α)
    (texts : List String) :
    ((embed_batch enc texts).isOk = true ↔ ∃ t ∈ texts, pyStrip t ≠ "") ∧
    ∀ out, embed_batch enc texts = .ok out →
      out = (texts.filter (fun t => pyStrip t ≠ "")).map enc := by
  have hfilter : texts.filter (fun t => !(t == "") && !(pyStrip t == ""))
      = texts.filter (fun t => decide (pyStrip t ≠ "")) :=
    List.filter_congr (fun t _ => valid_text_cond t)
  by_cases hemp : texts.isEmpty
  · have hnil : texts = [] := by
      cases texts with
      | nil => rfl
      | cons a as => simp [List.isEmpty] at hemp
    subst hnil
    exact ⟨by simp [embed_batch, Except.isOk, Except.toBool],
      fun out h => by simp [embed_batch] at h⟩
  · by_cases hval :
      (texts.filter (fun t => !(t == "") && !(pyStrip t == ""))).isEmpty
    · have hnil : texts.filter (fun t => decide (pyStrip t ≠ "")) = [] := by
        rw [← hfilter]
        exact List.isEmpty_iff.mp hval
      constructor
      · rw [show (embed_batch enc texts).isOk = false by
          simp [embed_batch, hemp, hval, Except.isOk, Except.toBool]]
        simp only [Bool.false_eq_true, false_iff]
        rintro ⟨t, ht, hts⟩
        have := List.filter_eq_nil_iff.mp hnil t ht
        simp at this
        exact hts this
      · intro out h
        exfalso
        simp [embed_batch, hemp, hval] at h
    · have hne : texts.filter (fun t => decide (pyStrip t ≠ "")) ≠ [] := by
        rw [← hfilter]
        intro hc
        rw [hc] at hval
        simp at hval
      have hres : embed_batch enc texts =
          .ok ((texts.filter (fun t => decide (pyStrip t ≠ ""))).map enc) := by
        simp only [embed_batch, hemp, Bool.false_eq_true, if_false]
        rw [show (if (texts.filter
            (fun t => !(t == "") && !(pyStrip t == ""))).isEmpty = true then
            (Except.error "No valid texts provided" :
              Except String (List α))
          else .ok ((texts.filter
            (fun t => !(t == "") && !(pyStrip t == ""))).map enc)) =
            .ok ((texts.filter
              (fun t => !(t == "") && !(pyStrip t == ""))).map enc) by
          simp [hval]]
        rw [hfilter]
      constructor
      · rw [hres]
        simp only [Except.isOk, Except.toBool, true_iff]
        cases hl : texts.filter (fun t => decide (pyStrip t ≠ "")) with
        | nil => exact absurd hl hne
        | cons a as =>
          have ha : a ∈ texts.filter (fun t => decide (pyStrip t ≠ "")) := by
            rw [hl]; exact List.mem_cons_self a as
          have := List.mem_filter.mp ha
          exact ⟨a, this.1, by simpa using this.2⟩
      · intro out h
        rw [hres] at h
        exact (Except.ok.inj h).symm

/-- Witness for C5 (corrected form) at a concrete one-element list. -/
theorem embed_batch_drops_blank_texts_witness :
    (embed_batch (fun _ => (0 : Nat)) ["hi"]).isOk = true :=
  (embed_batch_drops_blank_texts (fun _ => (0 : Nat)) ["hi"]).1.mpr
    ⟨"hi", by decide, by decide⟩

theorem scrapeStep1_only_repos (env : ScrapeEnv) (pd : ProfileData) :
    ∃ r, scrapeStep1 env pd = { pd with repos := r } := by
  unfold scrapeStep1
  cases env.profilePage with
  | error e => exact ⟨pd.repos, rfl⟩
  | ok o =>
    cases o with
    | none => exact ⟨pd.repos, rfl⟩
    | some n => exact ⟨n, rfl⟩

theorem scrapeStep3_only_graphql_fields (env : ScrapeEnv) (pd : ProfileData) :
    ∃ r c i p rv ex, scrapeStep3 env pd =
      { pd with repos := r, commits := c, issues := i, pullRequests := p,
                reviews := rv, isExact := ex } := by
  unfold scrapeStep3
  cases env.githubToken with
  | none => exact ⟨pd.repos, pd.commits, pd.issues, pd.pullRequests, pd.reviews,
      pd.isExact, rfl⟩
  | some tok =>
    cases env.graphqlUser with
    | error e => exact ⟨pd.repos, pd.commits, pd.issues, pd.pullRequests,
        pd.reviews, pd.isExact, rfl⟩
    | ok o =>
      cases o with
      | none => exact ⟨pd.repos, pd.commits, pd.issues, pd.pullRequests,
          pd.reviews, pd.isExact, rfl⟩
      | some user =>
        cases hrt : user.repositoriesTotal with
        | none =>
          cases hcc : user.contributionsCollection with
          | none => exact ⟨pd.repos, pd.commits, pd.issues, pd.pullRequests,
              pd.reviews, pd.isExact, by simp [hrt, hcc]⟩
          | some q =>
            obtain ⟨c, i, p, rv⟩ := q
            exact ⟨pd.repos, c, i, p, rv, true, by simp [hrt, hcc]⟩
        | some n =>
          cases hcc : user.contributionsCollection with
          | none => exact ⟨n, pd.commits, pd.issues, pd.pullRequests,
              pd.reviews, pd.isExact, by simp [hrt, hcc]⟩
          | some q =>
            obtain ⟨c, i, p, rv⟩ := q
            exact ⟨n, c, i, p, rv, true, by simp [hrt, hcc]⟩

/-- C9: the GitHub activity analyzer never propagates a sub-step failure:
for every outcome of the three network sub-steps it stores exactly one
best-effort summary document and reports success; when all sub-steps fail
the computed data is exactly the zero default; and whenever the
contribution-calendar fetch fails the contribution fields stay at their zero
defaults. -/
theorem scrape_best_effort (env : ScrapeEnv) (url today : String)
    (store : List Chunk) (e1 e2 e3 : String) (tok : Option String) :
    (scrape_github_profile env url today store).2 = true ∧
    (scrape_github_profile env url today store).1.length = store.length + 1 ∧
    scrapeProfileData ⟨.error e1, .error e2, tok, .error e3⟩ today
      = defaultProfileData ∧
    (∀ e, env.contribPage = .error e →
      (scrapeProfileData env today).totalContributions = 0 ∧
      (scrapeProfileData env today).currentStreak = 0 ∧
      (scrapeProfileData env today).longestStreak = 0 ∧
      (scrapeProfileData env today).activeDays = 0) := by
  refine ⟨rfl, by simp [scrape_github_profile], ?_, ?_⟩
  · cases tok with
    | none => rfl
    | some t => rfl
  · intro e he
    unfold scrapeProfileData scrapeStep2
    rw [he]
    obtain ⟨r, h1⟩ := scrapeStep1_only_repos env defaultProfileData
    rw [h1]
    obtain ⟨r', c, i, p, rv, ex, h3⟩ := scrapeStep3_only_graphql_fields env
      { defaultProfileData with repos := r }
    rw [h3]
    exact ⟨rfl, rfl, rfl, rfl⟩

/-- Witness for C9: all three sub-steps fail with network errors. -/
theorem scrape_best_effort_witness :
    (scrapeProfileData ⟨.error "down", .error "down", none, .error "down"⟩
      "2026-10-12").totalContributions = 0 ∧
    (scrapeProfileData ⟨.error "down", .error "down", none, .error "down"⟩
      "2026-10-12").currentStreak = 0 ∧
    (scrapeProfileData ⟨.error "down", .error "down", none, .error "down"⟩
      "2026-10-12").longestStreak = 0 ∧
    (scrapeProfileData ⟨.error "down", .error "down", none, .error "down"⟩
      "2026-10-12").activeDays = 0 :=
  (scrape_best_effort ⟨.error "down", .error "down", none, .error "down"⟩
    "https://github.com/octocat" "2026-10-12" [] "x" "x" "x" none).2.2.2
    "down" rfl

/-- C10: the profile summary document is stored with metadata holding exactly
the source URL and the profile type marker and no user_id key at all, and
because the retrieval filter demands user_id equality it is never among the
chunks retrieved for any tenant. -/
theorem profile_chunk_not_retrievable (env : ScrapeEnv) (url today : String)
    (store store2 : List Chunk) (score : Chunk → Int) (uid : String) :
    (scrape_github_profile env url today store).1 =
      store ++ [profileChunk env url today] ∧
    (profileChunk env url today).metadata =
      { source := url, user_id := none, type := some "profile" } ∧
    profileChunk env url today ∉ vectorSearch store2 score 3 uid := by
  refine ⟨rfl, rfl, fun hmem => ?_⟩
  have huid := (mem_vectorSearch hmem).2
  simp [profileChunk] at huid

/-- Witness for C10 at a concrete environment, store and tenant. -/
theorem profile_chunk_not_retrievable_witness :
    profileChunk ⟨.ok none, .ok (none, []), none, .ok none⟩
      "https://github.com/octocat" "2026-10-12" ∉
    vectorSearch [] (fun _ => 0) 3 "u1" :=
  (profile_chunk_not_retrievable ⟨.ok none, .ok (none, []), none, .ok none⟩
    "https://github.com/octocat" "2026-10-12" [] [] (fun _ => 0) "u1").2.2

/-- Witness for C4 (amended form): ingestion of the empty text. -/
theorem ingest_accepts_any_text_witness :
    ∃ docs : List Chunk,
      ingest_text [] "" "note" "u1" = .ok ([] ++ docs, docs.length) ∧
      docs.length = (Chunker.split "" 1000 200).length ∧
      ∀ c ∈ docs, c.metadata =
        { source := "note", user_id := some "u1", type := none } :=
  ingest_accepts_any_text [] "" "note" "u1"
